import Mathlib

/-!
A shallow embedding of the Crazy Eights game engine found in
`src/src/App.tsx` (card and deck model, the player actions `playCard`,
`drawCard`, `pickSuit`, the win-check effect, and the opponent logic
`handleAiTurn`), together with machine-checked proofs of the specified
behavioural properties: card conservation, legality of plays, atomicity
of rejected actions, termination and winner determination, the wild-8
asymmetry, suit picking, the opponent policy, and deal safety.
-/

inductive Suit where
  | hearts
  | diamonds
  | clubs
  | spades
deriving DecidableEq, Repr, Inhabited

inductive Rank where
  | rA
  | r2
  | r3
  | r4
  | r5
  | r6
  | r7
  | r8
  | r9
  | r10
  | rJ
  | rQ
  | rK
deriving DecidableEq, Repr, Inhabited

/-- `Card` from `types.ts`: an immutable value with a unique `id`
(the sole identity key used for hand removal), a suit and a rank.
The source uses a string id; we realise ids as natural numbers, which is
faithful because the engine only ever compares ids for equality. -/
structure Card where
  id : Nat
  suit : Suit
  rank : Rank
deriving DecidableEq, Repr, Inhabited

inductive Turn where
  | player
  | ai
deriving DecidableEq, Repr, Inhabited

inductive GameStatus where
  | waiting
  | playing
  | suitPicking
  | gameOver
deriving DecidableEq, Repr, Inhabited

/-- `GameState` from `types.ts`. -/
structure GameState where
  playerHand : List Card
  aiHand : List Card
  drawPile : List Card
  discardPile : List Card
  currentSuit : Suit
  currentRank : Rank
  turn : Turn
  status : GameStatus
  winner : Option Turn
deriving DecidableEq, Repr, Inhabited

/-- The fixed suit enumeration order `{hearts, diamonds, clubs, spades}`
used by `constants.ts` and by the object literal in `handleAiTurn`. -/
def SUITS : List Suit := [Suit.hearts, Suit.diamonds, Suit.clubs, Suit.spades]

def RANKS : List Rank :=
  [Rank.rA, Rank.r2, Rank.r3, Rank.r4, Rank.r5, Rank.r6, Rank.r7, Rank.r8,
   Rank.r9, Rank.r10, Rank.rJ, Rank.rQ, Rank.rK]

def suitIdx : Suit → Nat
  | Suit.hearts => 0
  | Suit.diamonds => 1
  | Suit.clubs => 2
  | Suit.spades => 3

def rankIdx : Rank → Nat
  | Rank.rA => 0
  | Rank.r2 => 1
  | Rank.r3 => 2
  | Rank.r4 => 3
  | Rank.r5 => 4
  | Rank.r6 => 5
  | Rank.r7 => 6
  | Rank.r8 => 7
  | Rank.r9 => 8
  | Rank.r10 => 9
  | Rank.rJ => 10
  | Rank.rQ => 11
  | Rank.rK => 12

/-- The card of a given suit and rank with its canonical deck id. -/
def cardOf (su : Suit) (r : Rank) : Card :=
  { id := suitIdx su * 13 + rankIdx r, suit := su, rank := r }

/-- Modelled from the spec: `createDeck` lives in `constants.ts`, which is
not under `src/`.  Per the spec it "produces the 52 (suit, rank)
combinations in a fixed canonical order, each assigned a fresh unique id";
we realise the fresh unique id as the card's index in that canonical
order.  `shuffle` (also in `constants.ts`) is modelled by quantifying over
arbitrary permutations of this deck. -/
def createDeck : List Card :=
  SUITS.flatMap fun su => RANKS.map fun r => cardOf su r

/-- `INITIAL_HAND_SIZE` from `App.tsx` line 24. -/
def INITIAL_HAND_SIZE : Nat := 8

/-- Helper capturing the recurring `findIndex` / take the found element /
`filter((_, i) => i !== foundIndex)` (resp. `splice(idx, 1)`) pattern of
the source: returns the first element satisfying `p` together with the
list with exactly that occurrence removed, or `none` when no element
satisfies `p` (in the deal scan the source's unguarded `while` loop would
run past the end of the array and throw on the `none` case). -/
def removeFirst (p : Card → Bool) : List Card → Option (Card × List Card)
  | [] => none
  | c :: cs =>
    if p c then some (c, cs)
    else
      match removeFirst p cs with
      | none => none
      | some (x, rest) => some (x, c :: rest)

/-- `initGame` from `App.tsx` lines 56-81: shuffle (handled by the caller
via an arbitrary permutation), deal 8 cards to the player and 8 to the
opponent, scan the remainder for the first card whose rank is not `8`
(the unguarded `while (deck[firstCardIndex].rank === '8')` loop, which
throws when no such card exists — modelled by `none`), make it the sole
discard entry, and let the rest become the draw pile. -/
def initGame (deck : List Card) : Option GameState :=
  match removeFirst (fun c => !(c.rank == Rank.r8))
      ((deck.drop INITIAL_HAND_SIZE).drop INITIAL_HAND_SIZE) with
  | none => none
  | some (first, drawPile) =>
    some { playerHand := deck.take INITIAL_HAND_SIZE,
           aiHand := (deck.drop INITIAL_HAND_SIZE).take INITIAL_HAND_SIZE,
           drawPile := drawPile, discardPile := [first],
           currentSuit := first.suit, currentRank := first.rank,
           turn := Turn.player, status := GameStatus.playing, winner := none }

/-- The play-legality test of the engine: `App.tsx` lines 171-172
(`isEight || card.suit === currentSuit || card.rank === currentRank`),
repeated verbatim in the `isPlayable` highlight at lines 438-440. -/
def isLegalPlay (card : Card) (currentSuit : Suit) (currentRank : Rank) : Bool :=
  card.rank == Rank.r8 || card.suit == currentSuit || card.rank == currentRank

/-- The UI affordance `isPlayable` from `App.tsx` lines 438-440. -/
def isPlayable (s : GameState) (card : Card) : Bool :=
  s.turn == Turn.player && s.status == GameStatus.playing &&
    isLegalPlay card s.currentSuit s.currentRank

/-- `playCard` from `App.tsx` lines 168-200. -/
def playCard (s : GameState) (card : Card) : GameState :=
  if s.turn ≠ Turn.player ∨ s.status ≠ GameStatus.playing then s
  else if !(isLegalPlay card s.currentSuit s.currentRank) then s
  else
    let newPlayerHand := s.playerHand.filter fun c => !(c.id == card.id)
    if card.rank = Rank.r8 then
      { s with playerHand := newPlayerHand,
               discardPile := card :: s.discardPile,
               status := GameStatus.suitPicking }
    else
      { s with playerHand := newPlayerHand,
               discardPile := card :: s.discardPile,
               currentSuit := card.suit, currentRank := card.rank,
               turn := Turn.ai }

/-- `drawCard` from `App.tsx` lines 202-219. -/
def drawCard (s : GameState) : GameState :=
  if s.turn ≠ Turn.player ∨ s.status ≠ GameStatus.playing then s
  else
    match s.drawPile with
    | [] => { s with turn := Turn.ai }
    | drawn :: remainingDrawPile =>
      { s with playerHand := s.playerHand ++ [drawn],
               drawPile := remainingDrawPile, turn := Turn.ai }

/-- `pickSuit` from `App.tsx` lines 221-230.  Note: the source function
performs no phase check of its own; the UI renders the suit-picker modal
only while `status === 'suit-picking'`. -/
def pickSuit (s : GameState) (suit : Suit) : GameState :=
  { s with currentSuit := suit, currentRank := Rank.r8,
           status := GameStatus.playing, turn := Turn.ai }

/-- The match predicate of the opponent's first branch
(`c.rank !== '8' && (c.suit === currentSuit || c.rank === currentRank)`,
`App.tsx` line 111). -/
def aiMatch (s : GameState) (c : Card) : Bool :=
  !(c.rank == Rank.r8) && (c.suit == s.currentSuit || c.rank == s.currentRank)

/-- The wild predicate of the opponent's second branch (`c.rank === '8'`,
`App.tsx` line 128). -/
def isEightCard (c : Card) : Bool := c.rank == Rank.r8

/-- The per-suit occurrence count built by the `suitCounts` record and the
`forEach` increment in `App.tsx` lines 134-135. -/
def suitCounts (hand : List Card) (su : Suit) : Nat :=
  hand.countP fun c => c.suit == su

/-- The suit choice of `App.tsx` line 136:
`Object.keys(suitCounts).reduce((a, b) => suitCounts[a] > suitCounts[b] ? a : b)`,
a left fold over the key order `{hearts, diamonds, clubs, spades}` with
`hearts` as the initial accumulator, keeping the incumbent only when its
count is strictly greater. -/
def bestSuit (hand : List Card) : Suit :=
  [Suit.diamonds, Suit.clubs, Suit.spades].foldl
    (fun a b => if suitCounts hand a > suitCounts hand b then a else b)
    Suit.hearts

/-- `handleAiTurn` from `App.tsx` lines 107-166: (1) play the first
matching non-8 (by `findIndex` + filter-by-index, i.e. `removeFirst`);
(2) else play the first 8 and pick the majority suit of the remaining
hand; (3) else draw the head of the draw pile; (4) else skip. -/
def handleAiTurn (s : GameState) : GameState :=
  match removeFirst (aiMatch s) s.aiHand with
  | some (card, newAiHand) =>
    { s with aiHand := newAiHand,
             discardPile := card :: s.discardPile,
             currentSuit := card.suit, currentRank := card.rank,
             turn := Turn.player }
  | none =>
    match removeFirst isEightCard s.aiHand with
    | some (card, newAiHand) =>
      { s with aiHand := newAiHand,
               discardPile := card :: s.discardPile,
               currentSuit := bestSuit newAiHand, currentRank := Rank.r8,
               turn := Turn.player }
    | none =>
      match s.drawPile with
      | drawn :: remainingDrawPile =>
        { s with aiHand := s.aiHand ++ [drawn],
                 drawPile := remainingDrawPile, turn := Turn.player }
      | [] => { s with turn := Turn.player }

/-- The win-check effect from `App.tsx` lines 84-94, which runs after
every state change: while `status === 'playing'`, an empty player hand
ends the game with `winner = 'player'`, else an empty opponent hand ends
it with `winner = 'ai'`. -/
def checkWin (s : GameState) : GameState :=
  if s.status = GameStatus.playing then
    if s.playerHand.length = 0 then
      { s with status := GameStatus.gameOver, winner := some Turn.player }
    else if s.aiHand.length = 0 then
      { s with status := GameStatus.gameOver, winner := some Turn.ai }
    else s
  else s

/-- One observable transition of the running application: an operation as
it can actually be invoked (card clicks come from the rendered player
hand; the suit picker is rendered only during `suit-picking`; the
opponent effect fires only when `turn = 'ai'` and `status = 'playing'`),
followed by the win-check effect. -/
inductive Step : GameState → GameState → Prop where
  | play : ∀ (s : GameState) (card : Card), card ∈ s.playerHand →
      Step s (checkWin (playCard s card))
  | draw : ∀ (s : GameState), Step s (checkWin (drawCard s))
  | pick : ∀ (s : GameState) (su : Suit), s.status = GameStatus.suitPicking →
      Step s (checkWin (pickSuit s su))
  | aiMove : ∀ (s : GameState), s.status = GameStatus.playing →
      s.turn = Turn.ai → Step s (checkWin (handleAiTurn s))

/-- Reachability by any sequence of engine operations. -/
def Reachable (s0 s : GameState) : Prop := Relation.ReflTransGen Step s0 s

/-- A concrete playing state in which it is the opponent's turn. -/
def sAiTurnW : GameState :=
  { playerHand := [cardOf Suit.hearts Rank.rA],
    aiHand := [cardOf Suit.clubs Rank.r3],
    drawPile := [cardOf Suit.spades Rank.rK],
    discardPile := [cardOf Suit.hearts Rank.r9],
    currentSuit := Suit.hearts, currentRank := Rank.r9,
    turn := Turn.ai, status := GameStatus.playing, winner := none }

/-- A concrete playing state in which it is the player's turn with active
suit hearts and active rank 9. -/
def sPlayerTurnW : GameState :=
  { sAiTurnW with turn := Turn.player }

/-- A concrete state for the player side of the C5 witness: the player
holds only the 8 of hearts. -/
def sWildPlayerW : GameState :=
  { sPlayerTurnW with playerHand := [cardOf Suit.hearts Rank.r8],
                      currentSuit := Suit.clubs, currentRank := Rank.r3 }

/-- A concrete state for the opponent side of the C5 witness: the
opponent holds the 8 of spades and the ace of hearts against active suit
clubs and active rank 3, so it has no matching non-8 and plays the 8. -/
def sWildAiW : GameState :=
  { sAiTurnW with aiHand := [cardOf Suit.spades Rank.r8, cardOf Suit.hearts Rank.rA],
                  currentSuit := Suit.clubs, currentRank := Rank.r3 }

/-- A concrete opponent state producing a suit-count tie: the opponent
holds the 8 of spades, the ace of hearts and the ace of diamonds, with
active suit clubs and active rank 3, so no card matches, the 8 is
played, and the remaining hand counts hearts and diamonds one each. -/
def sTieAiW : GameState :=
  { sAiTurnW with
      aiHand := [cardOf Suit.spades Rank.r8, cardOf Suit.hearts Rank.rA,
                 cardOf Suit.diamonds Rank.rA],
      currentSuit := Suit.clubs, currentRank := Rank.r3 }

/-- A reduced deck on which the deal scan finds no non-8 card: sixteen
cards are dealt and the single remaining card is an 8. -/
def eightsTailDeck : List Card := createDeck.take 16 ++ [cardOf Suit.hearts Rank.r8]

/-- The multiset of cards across the four zones of a state. -/
def zonesM (s : GameState) : Multiset Card :=
  (s.playerHand : Multiset Card) + (s.aiHand : Multiset Card) +
    (s.drawPile : Multiset Card) + (s.discardPile : Multiset Card)

/-- The state dealt from the canonical (unshuffled) deck. -/
def s0W : GameState := (initGame createDeck).getD default

/-- The terminal-state soundness property: a `game-over` state records as
winner exactly the side whose hand is empty, and a `playing` state has
two non-empty hands. -/
def StatusOK (s : GameState) : Prop :=
  (s.status = GameStatus.gameOver →
    (s.winner = some Turn.player ∧ s.playerHand = []) ∨
    (s.winner = some Turn.ai ∧ s.aiHand = [])) ∧
  (s.status = GameStatus.playing → s.playerHand ≠ [] ∧ s.aiHand ≠ [])

/-- A concrete permutation of the 52-card deck engineered so that the
player can empty their hand: the player is dealt the ace through 7 of
hearts plus the 8 of spades, the opponent is dealt high diamonds and
clubs that never match, the initial discard is the 9 of hearts, and the
next seven draw-pile cards are high clubs and spades the opponent can
never play. -/
def myDeck : List Card :=
  [cardOf Suit.hearts Rank.rA, cardOf Suit.hearts Rank.r2,
   cardOf Suit.hearts Rank.r3, cardOf Suit.hearts Rank.r4,
   cardOf Suit.hearts Rank.r5, cardOf Suit.hearts Rank.r6,
   cardOf Suit.hearts Rank.r7, cardOf Suit.spades Rank.r8,
   cardOf Suit.diamonds Rank.r9, cardOf Suit.diamonds Rank.r10,
   cardOf Suit.diamonds Rank.rJ, cardOf Suit.diamonds Rank.rQ,
   cardOf Suit.diamonds Rank.rK, cardOf Suit.clubs Rank.r9,
   cardOf Suit.clubs Rank.r10, cardOf Suit.clubs Rank.rJ,
   cardOf Suit.hearts Rank.r9,
   cardOf Suit.clubs Rank.rQ, cardOf Suit.clubs Rank.rK,
   cardOf Suit.spades Rank.r9, cardOf Suit.spades Rank.r10,
   cardOf Suit.spades Rank.rJ, cardOf Suit.spades Rank.rQ,
   cardOf Suit.spades Rank.rK,
   cardOf Suit.hearts Rank.r8, cardOf Suit.hearts Rank.r10,
   cardOf Suit.hearts Rank.rJ, cardOf Suit.hearts Rank.rQ,
   cardOf Suit.hearts Rank.rK,
   cardOf Suit.diamonds Rank.rA, cardOf Suit.diamonds Rank.r2,
   cardOf Suit.diamonds Rank.r3, cardOf Suit.diamonds Rank.r4,
   cardOf Suit.diamonds Rank.r5, cardOf Suit.diamonds Rank.r6,
   cardOf Suit.diamonds Rank.r7, cardOf Suit.diamonds Rank.r8,
   cardOf Suit.clubs Rank.rA, cardOf Suit.clubs Rank.r2,
   cardOf Suit.clubs Rank.r3, cardOf Suit.clubs Rank.r4,
   cardOf Suit.clubs Rank.r5, cardOf Suit.clubs Rank.r6,
   cardOf Suit.clubs Rank.r7, cardOf Suit.clubs Rank.r8,
   cardOf Suit.spades Rank.rA, cardOf Suit.spades Rank.r2,
   cardOf Suit.spades Rank.r3, cardOf Suit.spades Rank.r4,
   cardOf Suit.spades Rank.r5, cardOf Suit.spades Rank.r6,
   cardOf Suit.spades Rank.r7]

/-- The states of the concrete game on `myDeck`: the player plays their
hearts in ascending order, the opponent (holding no hearts, no 8 and no
matching rank) draws each turn, and the player finally plays the 8 of
spades as their last card. -/
def d0 : GameState := (initGame myDeck).getD default

def d1 : GameState := checkWin (playCard d0 (cardOf Suit.hearts Rank.rA))

def d2 : GameState := checkWin (handleAiTurn d1)

def d3 : GameState := checkWin (playCard d2 (cardOf Suit.hearts Rank.r2))

def d4 : GameState := checkWin (handleAiTurn d3)

def d5 : GameState := checkWin (playCard d4 (cardOf Suit.hearts Rank.r3))

def d6 : GameState := checkWin (handleAiTurn d5)

def d7 : GameState := checkWin (playCard d6 (cardOf Suit.hearts Rank.r4))

def d8 : GameState := checkWin (handleAiTurn d7)

def d9 : GameState := checkWin (playCard d8 (cardOf Suit.hearts Rank.r5))

def d10 : GameState := checkWin (handleAiTurn d9)

def d11 : GameState := checkWin (playCard d10 (cardOf Suit.hearts Rank.r6))

def d12 : GameState := checkWin (handleAiTurn d11)

def d13 : GameState := checkWin (playCard d12 (cardOf Suit.hearts Rank.r7))

def d14 : GameState := checkWin (handleAiTurn d13)

def d15 : GameState := checkWin (playCard d14 (cardOf Suit.spades Rank.r8))

/-! ### Properties of `removeFirst` -/

theorem removeFirst_eq_none (p : Card → Bool) (l : List Card)
    (h : ∀ x ∈ l, p x = false) : removeFirst p l = none := by
  induction l with
  | nil => rfl
  | cons c cs ih =>
    have hc : p c = false := h c (by simp)
    have ht : removeFirst p cs = none := ih fun x hx => h x (by simp [hx])
    simp [removeFirst, hc, ht]

theorem removeFirst_eq_some_of_split (p : Card → Bool) (l1 l2 : List Card)
    (c : Card) (h1 : ∀ x ∈ l1, p x = false) (hc : p c = true) :
    removeFirst p (l1 ++ c :: l2) = some (c, l1 ++ l2) := by
  induction l1 with
  | nil => simp [removeFirst, hc]
  | cons a l ih =>
    have ha : p a = false := h1 a (by simp)
    have ht := ih fun x hx => h1 x (by simp [hx])
    simp [removeFirst, ha, ht]

theorem removeFirst_prop (p : Card → Bool) (l : List Card) (c : Card)
    (r : List Card) (h : removeFirst p l = some (c, r)) : p c = true := by
  induction l generalizing r with
  | nil => simp [removeFirst] at h
  | cons a as ih =>
    by_cases ha : p a = true
    · simp [removeFirst, ha] at h
      exact h.1 ▸ ha
    · simp [removeFirst, ha] at h
      cases hr : removeFirst p as with
      | none => rw [hr] at h; simp at h
      | some pr =>
        obtain ⟨x, rest⟩ := pr
        rw [hr] at h
        simp at h
        obtain ⟨hx, -⟩ := h
        rw [hx] at hr
        exact ih rest hr

theorem removeFirst_perm (p : Card → Bool) (l : List Card) (c : Card)
    (r : List Card) (h : removeFirst p l = some (c, r)) : (c :: r).Perm l := by
  induction l generalizing r with
  | nil => simp [removeFirst] at h
  | cons a as ih =>
    by_cases ha : p a = true
    · simp [removeFirst, ha] at h
      rw [h.1, h.2]
    · simp [removeFirst, ha] at h
      cases hr : removeFirst p as with
      | none => rw [hr] at h; simp at h
      | some pr =>
        obtain ⟨x, rest⟩ := pr
        rw [hr] at h
        simp at h
        obtain ⟨hx, hr2⟩ := h
        rw [hx] at hr
        rw [← hr2]
        exact (List.Perm.swap a c rest).trans ((ih rest hr).cons a)

theorem removeFirst_isSome (p : Card → Bool) (l : List Card) (x : Card)
    (hmem : x ∈ l) (hp : p x = true) : (removeFirst p l).isSome = true := by
  induction l with
  | nil => simp at hmem
  | cons a as ih =>
    by_cases ha : p a = true
    · simp [removeFirst, ha]
    · rcases List.mem_cons.mp hmem with h | h
      · exact absurd (h ▸ hp) ha
      · have := ih h
        simp [removeFirst, ha]
        cases hr : removeFirst p as with
        | none => rw [hr] at this; simp at this
        | some pr => simp

/-! ### Claim C2: the legality predicate -/

/-- Claim C2: for every card and every currentSuit/currentRank, the
play-legality test used by the engine returns `true` if and only if the
card's rank is 8, or its suit equals `currentSuit`, or its rank equals
`currentRank`; in particular a rank-8 card is legal for all values of
`currentSuit` and `currentRank`, and the UI affordance `isPlayable` is
this same test conjoined with the turn and phase guards.  The test is a
pure total function of these inputs. -/
theorem c2_legality (card : Card) (cs : Suit) (cr : Rank) :
    (isLegalPlay card cs cr = true ↔
      card.rank = Rank.r8 ∨ card.suit = cs ∨ card.rank = cr) ∧
    (card.rank = Rank.r8 → isLegalPlay card cs cr = true) ∧
    (∀ s : GameState, isPlayable s card = true ↔
      s.turn = Turn.player ∧ s.status = GameStatus.playing ∧
        isLegalPlay card s.currentSuit s.currentRank = true) := by
  refine ⟨?_, ?_, ?_⟩
  · simp [isLegalPlay, or_assoc]
  · intro h
    simp [isLegalPlay, h]
  · intro s
    simp [isPlayable, and_assoc]

/-- Witness for C2 at a concrete input: the 8 of spades is legal on a
hearts/ace state. -/
theorem c2_legality_witness :
    isLegalPlay (cardOf Suit.spades Rank.r8) Suit.hearts Rank.rA = true :=
  (c2_legality (cardOf Suit.spades Rank.r8) Suit.hearts Rank.rA).2.1 rfl

/-! ### Claim C3: atomicity of rejected actions -/

/-- Claim C3: `playCard` and `drawCard` leave the state completely
unchanged whenever `turn` is not `player` or `status` is not `playing`;
and a `playCard` whose card fails the legality test is rejected with the
state unchanged (in the source only a notification is emitted). -/
theorem c3_rejected_atomicity (s : GameState) (card : Card) :
    (s.turn ≠ Turn.player ∨ s.status ≠ GameStatus.playing →
      playCard s card = s ∧ drawCard s = s) ∧
    (s.turn = Turn.player → s.status = GameStatus.playing →
      isLegalPlay card s.currentSuit s.currentRank = false →
      playCard s card = s) := by
  constructor
  · intro h
    constructor
    · unfold playCard
      rw [if_pos h]
    · unfold drawCard
      rw [if_pos h]
  · intro h1 h2 h3
    simp [playCard, h1, h2, h3]

/-- Witness for C3 at a concrete input: with the turn belonging to the
opponent, playing and drawing are both no-ops, and with the turn
belonging to the player an illegal card is rejected unchanged. -/
theorem c3_rejected_atomicity_witness :
    (playCard sAiTurnW (cardOf Suit.hearts Rank.rA) = sAiTurnW ∧
      drawCard sAiTurnW = sAiTurnW) ∧
    playCard sPlayerTurnW (cardOf Suit.diamonds Rank.r5) = sPlayerTurnW :=
  ⟨(c3_rejected_atomicity sAiTurnW (cardOf Suit.hearts Rank.rA)).1
      (Or.inl (by decide)),
   (c3_rejected_atomicity sPlayerTurnW (cardOf Suit.diamonds Rank.r5)).2
      rfl rfl (by decide)⟩

/-! ### Claim C6: suit picking -/

/-- Counterexample to C6 as stated: `pickSuit` is not a no-op outside the
`suit-picking` phase.  In the concrete playing state `sPlayerTurnW`
(status `playing`, current rank 9), picking hearts mutates the state
(it forces `currentRank` to 8 and hands the turn to the opponent),
because the source function performs no phase check. -/
theorem c6_counterexample :
    sPlayerTurnW.status = GameStatus.playing ∧
    sPlayerTurnW.status ≠ GameStatus.suitPicking ∧
    pickSuit sPlayerTurnW Suit.hearts ≠ sPlayerTurnW ∧
    (pickSuit sPlayerTurnW Suit.hearts).currentRank = Rank.r8 ∧
    sPlayerTurnW.currentRank = Rank.r9 := by
  decide

/-- Claim C6 as amended: `pickSuit` itself performs no phase check — in
every state (whatever `status`) it sets `currentSuit` to the chosen suit,
forces `currentRank` to 8, sets `status` to `playing` and flips `turn`
to the opponent, leaving hands, piles and winner unchanged; in particular
it behaves exactly as the claim requires when `status = suit-picking`.
Phase validity is enforced only by the UI, which renders the suit picker
solely during `suit-picking`. -/
theorem c6_amended (s : GameState) (su : Suit) :
    (pickSuit s su).currentSuit = su ∧
    (pickSuit s su).currentRank = Rank.r8 ∧
    (pickSuit s su).status = GameStatus.playing ∧
    (pickSuit s su).turn = Turn.ai ∧
    (pickSuit s su).playerHand = s.playerHand ∧
    (pickSuit s su).aiHand = s.aiHand ∧
    (pickSuit s su).drawPile = s.drawPile ∧
    (pickSuit s su).discardPile = s.discardPile ∧
    (pickSuit s su).winner = s.winner :=
  ⟨rfl, rfl, rfl, rfl, rfl, rfl, rfl, rfl, rfl⟩

/-! ### Claim C9: the player draw -/

/-- Claim C9: with `turn = player` and `status = playing`, drawing from a
non-empty draw pile moves exactly the head card of the draw pile to the
end of the player's hand and flips the turn to the opponent; drawing from
an empty draw pile flips the turn with no other change. -/
theorem c9_player_draw (s : GameState) (h1 : s.turn = Turn.player)
    (h2 : s.status = GameStatus.playing) :
    (s.drawPile = [] → drawCard s = { s with turn := Turn.ai }) ∧
    (∀ d rest, s.drawPile = d :: rest →
      drawCard s = { s with playerHand := s.playerHand ++ [d],
                            drawPile := rest, turn := Turn.ai }) := by
  constructor
  · intro h
    simp [drawCard, h1, h2, h]
  · intro d rest h
    simp [drawCard, h1, h2, h]

/-- Witness for C9 at concrete inputs: in `sPlayerTurnW` (one king of
spades on the draw pile) the draw moves that king to the end of the hand;
in the same state with the pile emptied, the draw only passes the turn. -/
theorem c9_player_draw_witness :
    drawCard sPlayerTurnW =
      { sPlayerTurnW with
          playerHand := sPlayerTurnW.playerHand ++ [cardOf Suit.spades Rank.rK],
          drawPile := [], turn := Turn.ai } ∧
    drawCard { sPlayerTurnW with drawPile := [] } =
      { sPlayerTurnW with drawPile := [], turn := Turn.ai } :=
  ⟨(c9_player_draw sPlayerTurnW rfl rfl).2 (cardOf Suit.spades Rank.rK) [] rfl,
   (c9_player_draw { sPlayerTurnW with drawPile := [] } rfl rfl).1 rfl⟩

/-! ### Claim C5: the wild-8 rank-update asymmetry -/

/-- Claim C5: with `turn = player` and `status = playing`, playing a
rank-8 card removes it (by id) from the player's hand, pushes it to the
front of the discard pile and moves to `suit-picking`, while leaving
`currentRank`, `currentSuit` and `turn` untouched; whereas the opponent's
own wild-8 play (no matching non-8 in hand, first 8 removed to the
discard front) sets `currentRank` to 8 immediately, in the same
transition that chooses the new suit. -/
theorem c5_wild_asymmetry (s t : GameState) (card : Card)
    (h1 : s.turn = Turn.player) (h2 : s.status = GameStatus.playing)
    (h8 : card.rank = Rank.r8)
    (hnm : ∀ x ∈ t.aiHand, aiMatch t x = false)
    (card2 : Card) (rest2 : List Card)
    (h82 : removeFirst isEightCard t.aiHand = some (card2, rest2)) :
    (playCard s card).playerHand =
      s.playerHand.filter (fun c => !(c.id == card.id)) ∧
    card ∉ (playCard s card).playerHand ∧
    (playCard s card).discardPile = card :: s.discardPile ∧
    (playCard s card).status = GameStatus.suitPicking ∧
    (playCard s card).currentRank = s.currentRank ∧
    (playCard s card).currentSuit = s.currentSuit ∧
    (playCard s card).turn = s.turn ∧
    (handleAiTurn t).aiHand = rest2 ∧
    (handleAiTurn t).discardPile = card2 :: t.discardPile ∧
    (handleAiTurn t).currentRank = Rank.r8 ∧
    (handleAiTurn t).currentSuit = bestSuit rest2 := by
  have hnone : removeFirst (aiMatch t) t.aiHand = none :=
    removeFirst_eq_none _ _ hnm
  have hplay : playCard s card =
      { s with playerHand := s.playerHand.filter (fun c => !(c.id == card.id)),
               discardPile := card :: s.discardPile,
               status := GameStatus.suitPicking } := by
    simp [playCard, h1, h2, h8, isLegalPlay]
  have hai : handleAiTurn t =
      { t with aiHand := rest2, discardPile := card2 :: t.discardPile,
               currentSuit := bestSuit rest2, currentRank := Rank.r8,
               turn := Turn.player } := by
    simp [handleAiTurn, hnone, h82]
  refine ⟨by rw [hplay], ?_, by rw [hplay], by rw [hplay], by rw [hplay],
    by rw [hplay], by rw [hplay], by rw [hai], by rw [hai], by rw [hai],
    by rw [hai]⟩
  rw [hplay]
  simp

/-- Witness for C5 at concrete inputs: the player's 8 leads to
`suit-picking` with `currentRank` still 3, while the opponent's 8 sets
`currentRank` to 8 at once. -/
theorem c5_wild_asymmetry_witness :
    (playCard sWildPlayerW (cardOf Suit.hearts Rank.r8)).status =
      GameStatus.suitPicking ∧
    (playCard sWildPlayerW (cardOf Suit.hearts Rank.r8)).currentRank =
      sWildPlayerW.currentRank ∧
    (handleAiTurn sWildAiW).currentRank = Rank.r8 := by
  have h := c5_wild_asymmetry sWildPlayerW sWildAiW
    (cardOf Suit.hearts Rank.r8) rfl rfl rfl (by decide)
    (cardOf Suit.spades Rank.r8) [cardOf Suit.hearts Rank.rA] (by decide)
  exact ⟨h.2.2.2.1, h.2.2.2.2.1, h.2.2.2.2.2.2.2.2.2.1⟩

/-! ### Claim C7: the opponent policy -/

/-- Claim C7: with `turn = ai` and `status = playing`, the opponent turn
executes exactly one of four branches, in priority order.  (1) If the
hand splits as `l1 ++ card :: l2` with every card of `l1` failing the
match test and `card` passing it (i.e. `card` is the first card in hand
order with rank different from 8 whose suit matches `currentSuit` or
whose rank matches `currentRank`), that card moves from the hand to the
discard front and `currentSuit`/`currentRank` become its own suit/rank.
(2) Else, if every card fails the match test and the hand splits at its
first rank-8 card, that 8 moves to the discard front.  (3) Else, with
no matching card and no 8, a non-empty draw pile appends its head card
to the opponent's hand.  (4) Else the opponent passes with no hand
change.  In every branch the turn is handed to the player. -/
theorem c7_opponent_policy (s : GameState) (_hst : s.status = GameStatus.playing)
    (_ht : s.turn = Turn.ai) :
    (handleAiTurn s).turn = Turn.player ∧
    (∀ l1 card l2, s.aiHand = l1 ++ card :: l2 →
      (∀ x ∈ l1, aiMatch s x = false) → aiMatch s card = true →
      handleAiTurn s =
        { s with aiHand := l1 ++ l2, discardPile := card :: s.discardPile,
                 currentSuit := card.suit, currentRank := card.rank,
                 turn := Turn.player }) ∧
    ((∀ x ∈ s.aiHand, aiMatch s x = false) →
      ∀ l1 card l2, s.aiHand = l1 ++ card :: l2 →
      (∀ x ∈ l1, isEightCard x = false) → isEightCard card = true →
      handleAiTurn s =
        { s with aiHand := l1 ++ l2, discardPile := card :: s.discardPile,
                 currentSuit := bestSuit (l1 ++ l2), currentRank := Rank.r8,
                 turn := Turn.player }) ∧
    ((∀ x ∈ s.aiHand, aiMatch s x = false) →
      (∀ x ∈ s.aiHand, isEightCard x = false) →
      ∀ d rest, s.drawPile = d :: rest →
      handleAiTurn s =
        { s with aiHand := s.aiHand ++ [d], drawPile := rest,
                 turn := Turn.player }) ∧
    ((∀ x ∈ s.aiHand, aiMatch s x = false) →
      (∀ x ∈ s.aiHand, isEightCard x = false) → s.drawPile = [] →
      handleAiTurn s = { s with turn := Turn.player }) := by
  refine ⟨?_, ?_, ?_, ?_, ?_⟩
  · unfold handleAiTurn
    cases h1 : removeFirst (aiMatch s) s.aiHand with
    | some pr => obtain ⟨c, r⟩ := pr; rfl
    | none =>
      cases h2 : removeFirst isEightCard s.aiHand with
      | some pr => obtain ⟨c, r⟩ := pr; rfl
      | none =>
        cases h3 : s.drawPile with
        | nil => rfl
        | cons d rest => rfl
  · intro l1 card l2 hsplit hl1 hcard
    have h1 : removeFirst (aiMatch s) s.aiHand = some (card, l1 ++ l2) := by
      rw [hsplit]
      exact removeFirst_eq_some_of_split _ _ _ _ hl1 hcard
    simp [handleAiTurn, h1]
  · intro hnm l1 card l2 hsplit hl1 hcard
    have h1 : removeFirst (aiMatch s) s.aiHand = none :=
      removeFirst_eq_none _ _ hnm
    have h2 : removeFirst isEightCard s.aiHand = some (card, l1 ++ l2) := by
      rw [hsplit]
      exact removeFirst_eq_some_of_split _ _ _ _ hl1 hcard
    simp [handleAiTurn, h1, h2]
  · intro hnm hn8 d rest hdraw
    have h1 : removeFirst (aiMatch s) s.aiHand = none :=
      removeFirst_eq_none _ _ hnm
    have h2 : removeFirst isEightCard s.aiHand = none :=
      removeFirst_eq_none _ _ hn8
    simp [handleAiTurn, h1, h2, hdraw]
  · intro hnm hn8 hdraw
    have h1 : removeFirst (aiMatch s) s.aiHand = none :=
      removeFirst_eq_none _ _ hnm
    have h2 : removeFirst isEightCard s.aiHand = none :=
      removeFirst_eq_none _ _ hn8
    simp [handleAiTurn, h1, h2, hdraw]

/-- Witness for C7 at a concrete input: in `sAiTurnW` the opponent's
first (and only) card, the 3 of clubs, fails the match test against
hearts/9, there is no 8, and the draw pile holds the king of spades, so
branch (3) fires: the opponent draws that king and passes the turn. -/
theorem c7_opponent_policy_witness :
    (handleAiTurn sAiTurnW).turn = Turn.player ∧
    handleAiTurn sAiTurnW =
      { sAiTurnW with
          aiHand := sAiTurnW.aiHand ++ [cardOf Suit.spades Rank.rK],
          drawPile := [], turn := Turn.player } := by
  have h := c7_opponent_policy sAiTurnW rfl rfl
  exact ⟨h.1, h.2.2.2.1 (by decide) (by decide) (cardOf Suit.spades Rank.rK) [] rfl⟩

/-! ### Claim C8: the opponent's wild-8 suit choice -/

/-- The chosen suit maximises the suit count over the remaining hand and,
among the suits attaining the maximum, is the one occurring last in the
enumeration order hearts, diamonds, clubs, spades (the reduce keeps the
incumbent only on a strictly greater count). -/
theorem bestSuit_spec (hand : List Card) :
    (∀ t : Suit, suitCounts hand t ≤ suitCounts hand (bestSuit hand)) ∧
    (∀ t : Suit, suitCounts hand t = suitCounts hand (bestSuit hand) →
      suitIdx t ≤ suitIdx (bestSuit hand)) := by
  unfold bestSuit
  simp only [List.foldl_cons, List.foldl_nil]
  split_ifs <;> refine ⟨fun t => ?_, fun t h => ?_⟩ <;> cases t <;>
    simp_all [suitIdx] <;> omega

/-- Counterexample to C8 as stated: in `sTieAiW` the opponent plays its
8 with the remaining hand tied one heart, one diamond; the claim's
tie-break ("first suit reaching the maximum in the order hearts,
diamonds, clubs, spades") demands hearts, but the code selects
diamonds, because the reduce keeps the incumbent only when its count is
strictly greater and so yields the last maximal suit. -/
theorem c8_counterexample :
    removeFirst (aiMatch sTieAiW) sTieAiW.aiHand = none ∧
    removeFirst isEightCard sTieAiW.aiHand =
      some (cardOf Suit.spades Rank.r8,
            [cardOf Suit.hearts Rank.rA, cardOf Suit.diamonds Rank.rA]) ∧
    suitCounts [cardOf Suit.hearts Rank.rA, cardOf Suit.diamonds Rank.rA]
        Suit.hearts =
      suitCounts [cardOf Suit.hearts Rank.rA, cardOf Suit.diamonds Rank.rA]
        Suit.diamonds ∧
    (handleAiTurn sTieAiW).currentSuit = Suit.diamonds ∧
    Suit.diamonds ≠ Suit.hearts := by
  decide

/-- Claim C8 as amended: whenever the opponent plays an 8 (no matching
non-8 in hand, `removeFirst` finds the first 8), the new `currentSuit`
is obtained by counting each suit's occurrences in the remaining hand
and taking a suit with the highest count; on a tie the chosen suit is
the LAST suit reaching the maximum in the enumeration order hearts,
diamonds, clubs, spades (not the first, as originally claimed). -/
theorem c8_amended (s : GameState)
    (hnone : removeFirst (aiMatch s) s.aiHand = none)
    (card : Card) (rest : List Card)
    (h8 : removeFirst isEightCard s.aiHand = some (card, rest)) :
    (handleAiTurn s).currentSuit = bestSuit rest ∧
    (handleAiTurn s).currentRank = Rank.r8 ∧
    (∀ t : Suit, suitCounts rest t ≤ suitCounts rest (bestSuit rest)) ∧
    (∀ t : Suit, suitCounts rest t = suitCounts rest (bestSuit rest) →
      suitIdx t ≤ suitIdx (bestSuit rest)) := by
  have hai : (handleAiTurn s).currentSuit = bestSuit rest ∧
      (handleAiTurn s).currentRank = Rank.r8 := by
    constructor <;> simp [handleAiTurn, hnone, h8]
  exact ⟨hai.1, hai.2, (bestSuit_spec rest).1, (bestSuit_spec rest).2⟩

/-- Witness for C8 (amended) at a concrete input: in `sTieAiW` the new
suit is `bestSuit` of the remaining hand and the new rank is 8. -/
theorem c8_amended_witness :
    (handleAiTurn sTieAiW).currentSuit =
      bestSuit [cardOf Suit.hearts Rank.rA, cardOf Suit.diamonds Rank.rA] ∧
    (handleAiTurn sTieAiW).currentRank = Rank.r8 := by
  have h := c8_amended sTieAiW (by decide) (cardOf Suit.spades Rank.r8)
    [cardOf Suit.hearts Rank.rA, cardOf Suit.diamonds Rank.rA] (by decide)
  exact ⟨h.1, h.2.1⟩

/-! ### Claim C10: deal-scan safety -/

/-- Claim C10: on any permutation of the full 52-card deck, the post-deal
remainder holds 36 cards of which at most 4 are eights, so the scan for
the first non-8 card succeeds — it never runs past the end, and the deal
produces a state; and when no non-8 card exists in the remainder
(reduced-deck variant) the deal aborts with no state (the source's
unguarded scan throws on the out-of-bounds access, so no invalid state
is ever produced). -/
theorem c10_deal_safety :
    (∀ deck : List Card, deck.Perm createDeck →
      (deck.drop 16).countP (fun c => c.rank == Rank.r8) ≤ 4 ∧
      (deck.drop 16).length = 36 ∧
      (initGame deck).isSome = true) ∧
    (∀ deck : List Card, (∀ c ∈ deck.drop 16, c.rank = Rank.r8) →
      initGame deck = none) := by
  have hdd : ∀ deck : List Card,
      (deck.drop INITIAL_HAND_SIZE).drop INITIAL_HAND_SIZE = deck.drop 16 := by
    intro deck
    simp [INITIAL_HAND_SIZE, List.drop_drop]
  constructor
  · intro deck hperm
    have hcnt : deck.countP (fun c => c.rank == Rank.r8) = 4 := by
      rw [hperm.countP_eq]
      decide
    have hlen : deck.length = 52 := by
      rw [hperm.length_eq]
      decide
    have hsub : (deck.drop 16).countP (fun c => c.rank == Rank.r8) ≤ 4 :=
      hcnt ▸ (List.drop_sublist 16 deck).countP_le _
    have hdlen : (deck.drop 16).length = 36 := by
      rw [List.length_drop, hlen]
    refine ⟨hsub, hdlen, ?_⟩
    have hex : ∃ x ∈ deck.drop 16, (!(x.rank == Rank.r8)) = true := by
      by_contra hall
      push_neg at hall
      have hfull : (deck.drop 16).countP (fun c => c.rank == Rank.r8) = 36 := by
        rw [← hdlen]
        apply List.countP_eq_length.mpr
        intro a ha
        have h := hall a ha
        simpa using h
      omega
    obtain ⟨x, hx, hpx⟩ := hex
    have hsome : (removeFirst (fun c => !(c.rank == Rank.r8))
        ((deck.drop INITIAL_HAND_SIZE).drop INITIAL_HAND_SIZE)).isSome = true := by
      rw [hdd deck]
      exact removeFirst_isSome _ _ x hx hpx
    unfold initGame
    cases hr : removeFirst (fun c => !(c.rank == Rank.r8))
        ((deck.drop INITIAL_HAND_SIZE).drop INITIAL_HAND_SIZE) with
    | none => rw [hr] at hsome; simp at hsome
    | some pr => simp
  · intro deck hall
    have hnone : removeFirst (fun c => !(c.rank == Rank.r8))
        ((deck.drop INITIAL_HAND_SIZE).drop INITIAL_HAND_SIZE) = none := by
      rw [hdd deck]
      apply removeFirst_eq_none
      intro x hx
      simp [hall x hx]
    unfold initGame
    rw [hnone]

/-- Witness for C10 at concrete inputs: the canonical deck itself deals
successfully, and a 17-card deck whose single post-deal card is an 8
aborts the deal. -/
theorem c10_deal_safety_witness :
    (initGame createDeck).isSome = true ∧ initGame eightsTailDeck = none :=
  ⟨(c10_deal_safety.1 createDeck (List.Perm.refl createDeck)).2.2,
   c10_deal_safety.2 eightsTailDeck (by decide)⟩

/-! ### Claim C1: card conservation -/

theorem zonesM_checkWin (s : GameState) : zonesM (checkWin s) = zonesM s := by
  unfold checkWin
  split_ifs <;> rfl

theorem filter_id_cons_perm (hand : List Card) (card : Card)
    (hmem : card ∈ hand) (hnd : (hand.map Card.id).Nodup) :
    (card :: hand.filter (fun c => !(c.id == card.id))).Perm hand := by
  induction hand with
  | nil => simp at hmem
  | cons a as ih =>
    rw [List.map_cons, List.nodup_cons] at hnd
    by_cases hid : a.id = card.id
    · have ha : a = card := by
        rcases List.mem_cons.mp hmem with h | h
        · exact h.symm
        · exact absurd (hid ▸ List.mem_map_of_mem Card.id h) hnd.1
      subst ha
      have hall : as.filter (fun c => !(c.id == a.id)) = as := by
        apply List.filter_eq_self.mpr
        intro x hx
        have hne : x.id ≠ a.id := fun he =>
          hnd.1 (he ▸ List.mem_map_of_mem Card.id hx)
        simpa using hne
      simp [List.filter_cons, hall]
    · have hmem2 : card ∈ as := by
        rcases List.mem_cons.mp hmem with h | h
        · exact absurd (congrArg Card.id h.symm) hid
        · exact h
      have ih2 := ih hmem2 hnd.2
      have hf : (a :: as).filter (fun c => !(c.id == card.id)) =
          a :: as.filter (fun c => !(c.id == card.id)) := by
        simp [List.filter_cons, hid]
      rw [hf]
      exact (List.Perm.swap a card _).trans (ih2.cons a)

theorem zones_player_ids_nodup (deck : List Card) (hdeck : deck.Perm createDeck)
    (s : GameState) (hinv : zonesM s = (deck : Multiset Card)) :
    (s.playerHand.map Card.id).Nodup := by
  have hdn : (deck.map Card.id).Nodup := by
    rw [List.Perm.nodup_iff (hdeck.map Card.id)]
    decide
  have hzn : ((zonesM s).map Card.id).Nodup := by
    rw [hinv, Multiset.map_coe, Multiset.coe_nodup]
    exact hdn
  have hle : (s.playerHand : Multiset Card) ≤ zonesM s :=
    le_add_right (le_add_right (Multiset.le_add_right _ _))
  have hn := Multiset.nodup_of_le (Multiset.map_le_map hle) hzn
  rwa [Multiset.map_coe, Multiset.coe_nodup] at hn

theorem zonesM_playCard (s : GameState) (card : Card)
    (hmem : card ∈ s.playerHand) (hnd : (s.playerHand.map Card.id).Nodup) :
    zonesM (playCard s card) = zonesM s := by
  have hco : ((card :: s.playerHand.filter fun c => !(c.id == card.id)) :
      Multiset Card) = (s.playerHand : Multiset Card) :=
    Multiset.coe_eq_coe.mpr (filter_id_cons_perm s.playerHand card hmem hnd)
  rw [← Multiset.cons_coe] at hco
  by_cases h1 : s.turn ≠ Turn.player ∨ s.status ≠ GameStatus.playing
  · simp [playCard, h1]
  · by_cases h2 : isLegalPlay card s.currentSuit s.currentRank
    · by_cases h3 : card.rank = Rank.r8
      · have hstate : playCard s card =
            { s with playerHand := s.playerHand.filter fun c => !(c.id == card.id),
                     discardPile := card :: s.discardPile,
                     status := GameStatus.suitPicking } := by
          simp [playCard, h1, h2, h3]
        rw [hstate]
        unfold zonesM
        simp only []
        rw [← hco, ← Multiset.cons_coe, ← Multiset.singleton_add,
          ← Multiset.singleton_add]
        abel
      · have hstate : playCard s card =
            { s with playerHand := s.playerHand.filter fun c => !(c.id == card.id),
                     discardPile := card :: s.discardPile,
                     currentSuit := card.suit, currentRank := card.rank,
                     turn := Turn.ai } := by
          simp [playCard, h1, h2, h3]
        rw [hstate]
        unfold zonesM
        simp only []
        rw [← hco, ← Multiset.cons_coe, ← Multiset.singleton_add,
          ← Multiset.singleton_add]
        abel
    · simp [playCard, h1, h2]

theorem zonesM_drawCard (s : GameState) : zonesM (drawCard s) = zonesM s := by
  by_cases h1 : s.turn ≠ Turn.player ∨ s.status ≠ GameStatus.playing
  · simp [drawCard, h1]
  · cases hd : s.drawPile with
    | nil => simp [drawCard, h1, hd, zonesM]
    | cons d rest =>
      have hstate : drawCard s =
          { s with playerHand := s.playerHand ++ [d], drawPile := rest,
                   turn := Turn.ai } := by
        simp [drawCard, h1, hd]
      rw [hstate]
      unfold zonesM
      simp only []
      rw [hd, ← Multiset.coe_add, Multiset.coe_singleton, ← Multiset.cons_coe,
        ← Multiset.singleton_add]
      abel

theorem zonesM_pickSuit (s : GameState) (su : Suit) :
    zonesM (pickSuit s su) = zonesM s := rfl

theorem zonesM_handleAiTurn (s : GameState) :
    zonesM (handleAiTurn s) = zonesM s := by
  unfold handleAiTurn
  cases h1 : removeFirst (aiMatch s) s.aiHand with
  | some pr =>
    obtain ⟨card, newHand⟩ := pr
    have hco : ((card :: newHand : List Card) : Multiset Card) =
        (s.aiHand : Multiset Card) :=
      Multiset.coe_eq_coe.mpr (removeFirst_perm _ _ _ _ h1)
    rw [← Multiset.cons_coe] at hco
    unfold zonesM
    simp only []
    rw [← hco, ← Multiset.cons_coe, ← Multiset.singleton_add,
      ← Multiset.singleton_add]
    abel
  | none =>
    cases h2 : removeFirst isEightCard s.aiHand with
    | some pr =>
      obtain ⟨card, newHand⟩ := pr
      have hco : ((card :: newHand : List Card) : Multiset Card) =
          (s.aiHand : Multiset Card) :=
        Multiset.coe_eq_coe.mpr (removeFirst_perm _ _ _ _ h2)
      rw [← Multiset.cons_coe] at hco
      unfold zonesM
      simp only []
      rw [← hco, ← Multiset.cons_coe, ← Multiset.singleton_add,
        ← Multiset.singleton_add]
      abel
    | none =>
      cases h3 : s.drawPile with
      | nil => simp [zonesM, h3]
      | cons d rest =>
        unfold zonesM
        simp only []
        rw [← Multiset.coe_add, Multiset.coe_singleton, h3,
          ← Multiset.cons_coe, ← Multiset.singleton_add]
        abel

theorem initGame_zonesM (deck : List Card) (s0 : GameState)
    (h : initGame deck = some s0) : zonesM s0 = (deck : Multiset Card) := by
  unfold initGame at h
  cases hr : removeFirst (fun c => !(c.rank == Rank.r8))
      ((deck.drop INITIAL_HAND_SIZE).drop INITIAL_HAND_SIZE) with
  | none => rw [hr] at h; simp at h
  | some pr =>
    obtain ⟨first, dp⟩ := pr
    rw [hr] at h
    simp at h
    rw [← h]
    have hperm : ((first :: dp : List Card) : Multiset Card) =
        (((deck.drop INITIAL_HAND_SIZE).drop INITIAL_HAND_SIZE : List Card) :
          Multiset Card) :=
      Multiset.coe_eq_coe.mpr (removeFirst_perm _ _ _ _ hr)
    have hdeck1 : (deck : Multiset Card) =
        (deck.take INITIAL_HAND_SIZE : List Card) +
          (deck.drop INITIAL_HAND_SIZE : List Card) := by
      rw [Multiset.coe_add, List.take_append_drop]
    have hdeck2 : ((deck.drop INITIAL_HAND_SIZE : List Card) : Multiset Card) =
        ((deck.drop INITIAL_HAND_SIZE).take INITIAL_HAND_SIZE : List Card) +
          ((deck.drop INITIAL_HAND_SIZE).drop INITIAL_HAND_SIZE : List Card) := by
      rw [Multiset.coe_add, List.take_append_drop]
    unfold zonesM
    simp only []
    rw [hdeck1, hdeck2, ← hperm, Multiset.coe_singleton, ← Multiset.cons_coe,
      ← Multiset.singleton_add]
    abel

theorem step_zonesM (deck : List Card) (hdeck : deck.Perm createDeck)
    (s s' : GameState) (hstep : Step s s')
    (hinv : zonesM s = (deck : Multiset Card)) :
    zonesM s' = (deck : Multiset Card) := by
  cases hstep with
  | play card hmem =>
    rw [zonesM_checkWin,
      zonesM_playCard s card hmem (zones_player_ids_nodup deck hdeck s hinv)]
    exact hinv
  | draw =>
    rw [zonesM_checkWin, zonesM_drawCard]
    exact hinv
  | pick su hb =>
    rw [zonesM_checkWin, zonesM_pickSuit]
    exact hinv
  | aiMove hb1 hb2 =>
    rw [zonesM_checkWin, zonesM_handleAiTurn]
    exact hinv

theorem reachable_zonesM (deck : List Card) (hdeck : deck.Perm createDeck)
    (s0 s : GameState) (hinv0 : zonesM s0 = (deck : Multiset Card))
    (hreach : Reachable s0 s) : zonesM s = (deck : Multiset Card) := by
  induction hreach with
  | refl => exact hinv0
  | tail _ hstep ih => exact step_zonesM deck hdeck _ _ hstep ih

/-- Claim C1: for every state reachable from the initial deal of any
permutation of the 52-card deck by any sequence of the operations
`playCard`, `drawCard`, `pickSuit` and `handleAiTurn` (each as invocable
in the application, followed by the win check), the multiset of card ids
across `playerHand`, `aiHand`, `drawPile` and `discardPile` equals the
multiset of the original 52 deck ids — exactly 52 cards, no duplicates,
no omissions. -/
theorem c1_conservation (deck : List Card) (s0 s : GameState)
    (hdeck : deck.Perm createDeck) (hinit : initGame deck = some s0)
    (hreach : Reachable s0 s) :
    Multiset.map Card.id (zonesM s) =
      Multiset.map Card.id (createDeck : Multiset Card) ∧
    Multiset.card (zonesM s) = 52 ∧
    (Multiset.map Card.id (zonesM s)).Nodup := by
  have hz : zonesM s = (deck : Multiset Card) :=
    reachable_zonesM deck hdeck s0 s (initGame_zonesM deck s0 hinit) hreach
  have hz2 : zonesM s = (createDeck : Multiset Card) := by
    rw [hz]
    exact Multiset.coe_eq_coe.mpr hdeck
  refine ⟨by rw [hz2], ?_, ?_⟩
  · rw [hz2, Multiset.coe_card]
    decide
  · rw [hz2, Multiset.map_coe, Multiset.coe_nodup]
    decide

/-- Witness for C1 at a concrete input: the deal of the canonical deck
itself satisfies the conservation statement. -/
theorem c1_conservation_witness :
    createDeck.Perm createDeck ∧ initGame createDeck = some s0W ∧
    Multiset.card (zonesM s0W) = 52 ∧
    (Multiset.map Card.id (zonesM s0W)).Nodup := by
  have h := c1_conservation createDeck s0W s0W (List.Perm.refl createDeck)
    (by decide) Relation.ReflTransGen.refl
  exact ⟨List.Perm.refl createDeck, by decide, h.2.1, h.2.2⟩

/-! ### Claim C4: termination and winner -/

theorem checkWin_statusOK (t : GameState)
    (h : t.status = GameStatus.gameOver →
      (t.winner = some Turn.player ∧ t.playerHand = []) ∨
      (t.winner = some Turn.ai ∧ t.aiHand = [])) : StatusOK (checkWin t) := by
  unfold checkWin StatusOK
  split_ifs with h1 h2 h3
  · constructor
    · intro _
      left
      exact ⟨rfl, List.length_eq_zero.mp h2⟩
    · intro hc
      simp at hc
  · constructor
    · intro _
      right
      exact ⟨rfl, List.length_eq_zero.mp h3⟩
    · intro hc
      simp at hc
  · refine ⟨fun hc => ?_, fun _ => ⟨fun he => h2 (by simp [he]), fun he => h3 (by simp [he])⟩⟩
    rw [h1] at hc
    simp at hc
  · exact ⟨h, fun hp => absurd hp h1⟩

theorem playCard_status (s : GameState) (card : Card) :
    playCard s card = s ∨
    (s.status = GameStatus.playing ∧
      ((playCard s card).status = GameStatus.playing ∨
       (playCard s card).status = GameStatus.suitPicking)) := by
  by_cases h1 : s.turn ≠ Turn.player ∨ s.status ≠ GameStatus.playing
  · left
    simp [playCard, h1]
  · push_neg at h1
    obtain ⟨ht, hs⟩ := h1
    right
    refine ⟨hs, ?_⟩
    by_cases h2 : isLegalPlay card s.currentSuit s.currentRank
    · by_cases h3 : card.rank = Rank.r8
      · right
        simp [playCard, ht, hs, h2, h3]
      · left
        simp [playCard, ht, hs, h2, h3]
    · left
      simp [playCard, ht, hs, h2]

theorem drawCard_status (s : GameState) : (drawCard s).status = s.status := by
  by_cases h1 : s.turn ≠ Turn.player ∨ s.status ≠ GameStatus.playing
  · simp [drawCard, h1]
  · cases hd : s.drawPile with
    | nil => simp [drawCard, h1, hd]
    | cons d rest => simp [drawCard, h1, hd]

theorem drawCard_gameOver_eq (s : GameState)
    (h : (drawCard s).status = GameStatus.gameOver) : drawCard s = s := by
  have hs : s.status = GameStatus.gameOver := by
    rw [← drawCard_status]
    exact h
  have h1 : s.turn ≠ Turn.player ∨ s.status ≠ GameStatus.playing :=
    Or.inr (by simp [hs])
  simp [drawCard, h1]

theorem handleAiTurn_status (s : GameState) :
    (handleAiTurn s).status = s.status := by
  unfold handleAiTurn
  cases removeFirst (aiMatch s) s.aiHand with
  | some pr => obtain ⟨c, r⟩ := pr; rfl
  | none =>
    cases removeFirst isEightCard s.aiHand with
    | some pr => obtain ⟨c, r⟩ := pr; rfl
    | none =>
      cases s.drawPile with
      | nil => rfl
      | cons d rest => rfl

theorem step_statusOK (s s' : GameState) (hstep : Step s s')
    (hok : StatusOK s) : StatusOK s' := by
  cases hstep with
  | play card hmem =>
    apply checkWin_statusOK
    intro hgo
    rcases playCard_status s card with he | ⟨hs, hst⟩
    · rw [he] at hgo ⊢
      exact hok.1 hgo
    · rcases hst with h | h <;> rw [h] at hgo <;> simp at hgo
  | draw =>
    apply checkWin_statusOK
    intro hgo
    have he := drawCard_gameOver_eq s hgo
    rw [he] at hgo ⊢
    exact hok.1 hgo
  | pick su hb =>
    apply checkWin_statusOK
    intro hgo
    have h : (pickSuit s su).status = GameStatus.playing := rfl
    rw [h] at hgo
    simp at hgo
  | aiMove hb1 hb2 =>
    apply checkWin_statusOK
    intro hgo
    rw [handleAiTurn_status, hb1] at hgo
    simp at hgo

theorem initGame_statusOK (deck : List Card) (hlen : deck.length = 52)
    (s0 : GameState) (h : initGame deck = some s0) : StatusOK s0 := by
  unfold initGame at h
  cases hr : removeFirst (fun c => !(c.rank == Rank.r8))
      ((deck.drop INITIAL_HAND_SIZE).drop INITIAL_HAND_SIZE) with
  | none => rw [hr] at h; simp at h
  | some pr =>
    obtain ⟨first, dp⟩ := pr
    rw [hr] at h
    simp at h
    rw [← h]
    constructor
    · intro hc
      simp at hc
    · intro _
      constructor
      · have hl : (deck.take INITIAL_HAND_SIZE).length = 8 := by
          simp [INITIAL_HAND_SIZE, hlen]
        show deck.take INITIAL_HAND_SIZE ≠ []
        intro he
        rw [he] at hl
        simp at hl
      · have hl : ((deck.drop INITIAL_HAND_SIZE).take INITIAL_HAND_SIZE).length = 8 := by
          simp [INITIAL_HAND_SIZE, hlen]
        show (deck.drop INITIAL_HAND_SIZE).take INITIAL_HAND_SIZE ≠ []
        intro he
        rw [he] at hl
        simp at hl

/-- Claim C4 as amended: in every reachable state, `game-over` holds only
with the winner recorded as exactly the side whose hand is empty, and
while `status = playing` both hands are non-empty (a hand emptying
during play is turned into `game-over` by the win check before any
further action).  Exception forced by the counterexample: a player who
empties their hand by playing an 8 leaves the state in `suit-picking`
with an empty hand — the win check is guarded by `status = playing`, so
`game-over` (with winner `player`) occurs only after a suit is chosen. -/
theorem c4_amended (deck : List Card) (s0 s : GameState)
    (hdeck : deck.Perm createDeck) (hinit : initGame deck = some s0)
    (hreach : Reachable s0 s) :
    (s.status = GameStatus.gameOver →
      (s.winner = some Turn.player ∧ s.playerHand = []) ∨
      (s.winner = some Turn.ai ∧ s.aiHand = [])) ∧
    (s.status = GameStatus.playing → s.playerHand ≠ [] ∧ s.aiHand ≠ []) := by
  have hlen : deck.length = 52 := by
    rw [hdeck.length_eq]
    decide
  have hok : StatusOK s := by
    clear hdeck
    induction hreach with
    | refl => exact initGame_statusOK deck hlen s0 hinit
    | tail _ hstep ih => exact step_statusOK _ _ hstep ih
  exact hok

/-- Witness for C4 (amended) at a concrete input: the deal of the
canonical deck is a playing state with both hands non-empty. -/
theorem c4_amended_witness :
    s0W.status = GameStatus.playing ∧ s0W.playerHand ≠ [] ∧ s0W.aiHand ≠ [] := by
  have h := c4_amended createDeck s0W s0W (List.Perm.refl createDeck)
    (by decide) Relation.ReflTransGen.refl
  exact ⟨by decide, h.2 (by decide)⟩

/-- Counterexample to C4 as stated: a reachable state in which the
player's hand has reached size 0 yet the game has not reached
`game-over` — the player emptied their hand by playing an 8, so the
state is `suit-picking` (with `winner` still unset); `game-over` fires
only after a suit is chosen, because the win check is guarded by
`status = playing`. -/
theorem c4_counterexample :
    myDeck.Perm createDeck ∧
    initGame myDeck = some d0 ∧
    Reachable d0 d15 ∧
    d15.playerHand = [] ∧
    d15.status = GameStatus.suitPicking ∧
    d15.status ≠ GameStatus.gameOver ∧
    d15.winner = none := by
  refine ⟨by decide, by decide, ?_, by decide, by decide, by decide, by decide⟩
  exact Relation.ReflTransGen.head (Step.play d0 _ (by decide))
    (Relation.ReflTransGen.head (Step.aiMove d1 (by decide) (by decide))
      (Relation.ReflTransGen.head (Step.play d2 _ (by decide))
        (Relation.ReflTransGen.head (Step.aiMove d3 (by decide) (by decide))
          (Relation.ReflTransGen.head (Step.play d4 _ (by decide))
            (Relation.ReflTransGen.head (Step.aiMove d5 (by decide) (by decide))
              (Relation.ReflTransGen.head (Step.play d6 _ (by decide))
                (Relation.ReflTransGen.head (Step.aiMove d7 (by decide) (by decide))
                  (Relation.ReflTransGen.head (Step.play d8 _ (by decide))
                    (Relation.ReflTransGen.head (Step.aiMove d9 (by decide) (by decide))
                      (Relation.ReflTransGen.head (Step.play d10 _ (by decide))
                        (Relation.ReflTransGen.head (Step.aiMove d11 (by decide) (by decide))
                          (Relation.ReflTransGen.head (Step.play d12 _ (by decide))
                            (Relation.ReflTransGen.head (Step.aiMove d13 (by decide) (by decide))
                              (Relation.ReflTransGen.head (Step.play d14 _ (by decide))
                                Relation.ReflTransGen.refl))))))))))))))
